import Mathlib

/-!
Shallow embedding of the health-check aggregation engine of the scribemed
repository (source: `src/unnamed/part_020`, the `@scribemed/health` package
core, lines 947-2043).  JavaScript numbers that the engine only ever treats
as integral millisecond quantities or counters are modelled as `Int`;
optional fields are modelled as `Option`; JS records are modelled as
association lists.  The `timedOut` flag is modelled as `Bool` with absence
as `false`: every read of the field in the source is a truthiness test.
-/

set_option autoImplicit false

/-- Source `HealthStatus` — source part_020:952: `'healthy' | 'degraded' | 'unhealthy'`. -/
inductive HealthStatus where
  | healthy
  | degraded
  | unhealthy
deriving DecidableEq, Repr

/-- Source `CircuitBreakerState` — source part_020:953: `'closed' | 'open' | 'half-open'`.
`open` is a Lean keyword, so the constructor for the source's `'open'` is
named `opened`. -/
inductive CircuitBreakerState where
  | closed
  | opened
  | halfOpen
deriving DecidableEq, Repr

/-- Source `HealthCheckImpact` — source part_020:1053: `'critical' | 'non-critical'`. -/
inductive HealthCheckImpact where
  | critical
  | nonCritical
deriving DecidableEq, Repr

/-- Source `CheckResult` — source part_020:959-970.  `timedOut?: boolean` is modelled
as a plain `Bool` (absent ≡ `false`; the source only ever reads it through
truthiness tests such as `!result.timedOut`). -/
structure CheckResult where
  status : HealthStatus
  message : Option String := none
  responseTime : Option Int := none
  timedOut : Bool := false
  circuitBreakerState : Option CircuitBreakerState := none
  retryAfterMs : Option Int := none
  impact : Option HealthCheckImpact := none
deriving DecidableEq, Repr

/-- Source `HealthResponse` — source part_020:975-980.  The `checks` record is
modelled as an association list from check name to result. -/
structure HealthResponse where
  status : HealthStatus
  timestamp : String
  service : String
  checks : Option (List (String × CheckResult)) := none
deriving DecidableEq, Repr

/-! ## Status aggregation (`determineOverallStatus`, part_020:1872-1903) -/

/-- The three mutable flags accumulated by the `forEach` loop of
`determineOverallStatus` (part_020:1873-1875). -/
structure OverallFlags where
  hasCriticalUnhealthy : Bool := false
  hasCriticalDegraded : Bool := false
  hasNonCriticalIssue : Bool := false
deriving DecidableEq, Repr

/-- Body of the `forEach` callback in `determineOverallStatus`
(part_020:1877-1892): `const impact = result.impact ?? 'critical'` and the
status dispatch. -/
def overallStep (flags : OverallFlags) (result : CheckResult) : OverallFlags :=
  let impact := result.impact.getD .critical
  if result.status = .unhealthy then
    if impact = .critical then { flags with hasCriticalUnhealthy := true }
    else { flags with hasNonCriticalIssue := true }
  else if result.status = .degraded then
    if impact = .critical then { flags with hasCriticalDegraded := true }
    else { flags with hasNonCriticalIssue := true }
  else flags

/-- Source `determineOverallStatus` — source part_020:1872-1903.  Takes the record of
check results (`Object.values` iterates the values). -/
def determineOverallStatus (checkResults : List (String × CheckResult)) : HealthStatus :=
  let flags := (checkResults.map Prod.snd).foldl overallStep {}
  if flags.hasCriticalUnhealthy then .unhealthy
  else if flags.hasCriticalDegraded || flags.hasNonCriticalIssue then .degraded
  else .healthy

/-- A result that sets `hasCriticalUnhealthy`. -/
def isCriticalUnhealthy (r : CheckResult) : Bool :=
  decide (r.impact.getD .critical = .critical ∧ r.status = .unhealthy)

/-- A result that sets `hasCriticalDegraded`. -/
def isCriticalDegraded (r : CheckResult) : Bool :=
  decide (r.impact.getD .critical = .critical ∧ r.status = .degraded)

/-- A result that sets `hasNonCriticalIssue`. -/
def isNonCriticalIssue (r : CheckResult) : Bool :=
  decide (r.impact.getD .critical = .nonCritical ∧ r.status ≠ .healthy)

lemma overallStep_flags (f : OverallFlags) (r : CheckResult) :
    overallStep f r =
      { hasCriticalUnhealthy := f.hasCriticalUnhealthy || isCriticalUnhealthy r,
        hasCriticalDegraded := f.hasCriticalDegraded || isCriticalDegraded r,
        hasNonCriticalIssue := f.hasNonCriticalIssue || isNonCriticalIssue r } := by
  rcases f with ⟨a, b, c⟩
  cases hs : r.status <;> cases hi : r.impact.getD .critical <;>
    simp [overallStep, isCriticalUnhealthy, isCriticalDegraded, isNonCriticalIssue, hs, hi]

lemma foldl_overallStep (rs : List CheckResult) (f : OverallFlags) :
    rs.foldl overallStep f =
      { hasCriticalUnhealthy := f.hasCriticalUnhealthy || rs.any isCriticalUnhealthy,
        hasCriticalDegraded := f.hasCriticalDegraded || rs.any isCriticalDegraded,
        hasNonCriticalIssue := f.hasNonCriticalIssue || rs.any isNonCriticalIssue } := by
  induction rs generalizing f with
  | nil => simp
  | cons r rs ih =>
    simp only [List.foldl_cons, List.any_cons, ih, overallStep_flags]
    simp [Bool.or_assoc]

lemma not_issue_iff_healthy (r : CheckResult) :
    (isCriticalUnhealthy r = false ∧ isCriticalDegraded r = false ∧
      isNonCriticalIssue r = false) ↔ r.status = .healthy := by
  cases hs : r.status <;> cases hi : r.impact.getD .critical <;>
    simp [isCriticalUnhealthy, isCriticalDegraded, isNonCriticalIssue, hs, hi]

lemma determineOverallStatus_eq (rs : List (String × CheckResult)) :
    determineOverallStatus rs =
      if (rs.map Prod.snd).any isCriticalUnhealthy then .unhealthy
      else if ((rs.map Prod.snd).any isCriticalDegraded ||
          (rs.map Prod.snd).any isNonCriticalIssue) then .degraded
      else .healthy := by
  unfold determineOverallStatus
  rw [foldl_overallStep]
  simp only [Bool.false_or]

lemma any_isCriticalUnhealthy_iff (rs : List (String × CheckResult)) :
    (rs.map Prod.snd).any isCriticalUnhealthy = true ↔
      ∃ p ∈ rs, p.2.impact.getD .critical = .critical ∧ p.2.status = .unhealthy := by
  rw [List.any_eq_true]
  constructor
  · rintro ⟨r, hr, hb⟩
    rw [List.mem_map] at hr
    obtain ⟨p, hp, rfl⟩ := hr
    exact ⟨p, hp, by simpa [isCriticalUnhealthy] using hb⟩
  · rintro ⟨p, hp, h⟩
    exact ⟨p.2, List.mem_map.mpr ⟨p, hp, rfl⟩, by simpa [isCriticalUnhealthy] using h⟩

lemma all_healthy_iff (rs : List (String × CheckResult)) :
    ((rs.map Prod.snd).any isCriticalUnhealthy = false ∧
     (rs.map Prod.snd).any isCriticalDegraded = false ∧
     (rs.map Prod.snd).any isNonCriticalIssue = false) ↔
    ∀ p ∈ rs, p.2.status = .healthy := by
  constructor
  · rintro ⟨h1, h2, h3⟩ p hp
    refine (not_issue_iff_healthy p.2).mp ⟨?_, ?_, ?_⟩
    · by_contra hc
      have : (rs.map Prod.snd).any isCriticalUnhealthy = true :=
        List.any_eq_true.mpr ⟨p.2, List.mem_map.mpr ⟨p, hp, rfl⟩, by simpa using hc⟩
      rw [this] at h1; cases h1
    · by_contra hc
      have : (rs.map Prod.snd).any isCriticalDegraded = true :=
        List.any_eq_true.mpr ⟨p.2, List.mem_map.mpr ⟨p, hp, rfl⟩, by simpa using hc⟩
      rw [this] at h2; cases h2
    · by_contra hc
      have : (rs.map Prod.snd).any isNonCriticalIssue = true :=
        List.any_eq_true.mpr ⟨p.2, List.mem_map.mpr ⟨p, hp, rfl⟩, by simpa using hc⟩
      rw [this] at h3; cases h3
  · intro h
    refine ⟨?_, ?_, ?_⟩ <;>
    · rw [← Bool.not_eq_true, List.any_eq_true]
      rintro ⟨r, hr, hb⟩
      rw [List.mem_map] at hr
      obtain ⟨p, hp, rfl⟩ := hr
      have := (not_issue_iff_healthy p.2).mpr (h p hp)
      simp_all

/-- C1: `determineOverallStatus` returns `unhealthy` iff some result whose
impact is critical (absent impact counts as critical) is `unhealthy`;
returns `healthy` iff every result is `healthy`; and in all remaining cases
(no critical result unhealthy, not all results healthy) returns `degraded`. -/
theorem determineOverallStatus_spec (rs : List (String × CheckResult)) :
    (determineOverallStatus rs = .unhealthy ↔
      ∃ p ∈ rs, p.2.impact.getD .critical = .critical ∧ p.2.status = .unhealthy) ∧
    (determineOverallStatus rs = .healthy ↔ ∀ p ∈ rs, p.2.status = .healthy) ∧
    ((¬ ∃ p ∈ rs, p.2.impact.getD .critical = .critical ∧ p.2.status = .unhealthy) →
      (¬ ∀ p ∈ rs, p.2.status = .healthy) →
      determineOverallStatus rs = .degraded) := by
  have heq := determineOverallStatus_eq rs
  have hCU := any_isCriticalUnhealthy_iff rs
  have hAll := all_healthy_iff rs
  cases hA : (rs.map Prod.snd).any isCriticalUnhealthy with
  | true =>
    rw [hA] at heq
    simp only [if_true] at heq
    refine ⟨iff_of_true heq (hCU.mp hA), ?_, ?_⟩
    · refine iff_of_false (by rw [heq]; intro h; cases h) ?_
      intro hall
      have := (hAll.mpr hall).1
      rw [hA] at this; cases this
    · intro hne _
      exact absurd (hCU.mp hA) hne
  | false =>
    rw [hA] at heq
    simp only [Bool.false_eq_true, if_false] at heq
    have hnE1 : ¬ ∃ p ∈ rs, p.2.impact.getD .critical = .critical ∧
        p.2.status = .unhealthy := by
      intro hex
      have := hCU.mpr hex
      rw [hA] at this; cases this
    cases hBC : ((rs.map Prod.snd).any isCriticalDegraded ||
        (rs.map Prod.snd).any isNonCriticalIssue) with
    | true =>
      rw [hBC] at heq
      simp only [if_true] at heq
      refine ⟨iff_of_false (by rw [heq]; intro h; cases h) hnE1, ?_, ?_⟩
      · refine iff_of_false (by rw [heq]; intro h; cases h) ?_
        intro hall
        have h23 := hAll.mpr hall
        rw [h23.2.1, h23.2.2] at hBC
        cases hBC
      · intro _ _; exact heq
    | false =>
      rw [hBC] at heq
      simp only [Bool.false_eq_true, if_false] at heq
      have hall : ∀ p ∈ rs, p.2.status = .healthy := by
        apply hAll.mp
        rcases Bool.or_eq_false_iff.mp hBC with ⟨hB, hC⟩
        exact ⟨hA, hB, hC⟩
      refine ⟨iff_of_false (by rw [heq]; intro h; cases h) hnE1,
        iff_of_true heq hall, ?_⟩
      intro _ hnall
      exact absurd hall hnall

/-! ## Timeout resolution and enforcement (part_020:1291-1345) -/

/-- Source `DEFAULT_CHECK_TIMEOUT_MS` — source part_020:989. -/
def DEFAULT_CHECK_TIMEOUT_MS : Int := 2000

/-- Source `normalizeTimeoutValue` — source part_020:1305-1310: a missing value, a
non-number, `NaN`, or a value `≤ 0` all normalize to `undefined`.  The model's
`Option Int` domain covers the absent and numeric cases (non-number and `NaN`
inputs behave like absent ones and have no `Int` representative). -/
def normalizeTimeoutValue (value : Option Int) : Option Int :=
  match value with
  | none => none
  | some v => if v ≤ 0 then none else some v

/-- Source `TimeoutOptions` — source part_020:1014-1017.  The optional `perCheck`
record is modelled as an association list (absent record ≡ `[]`: both have no
entries). -/
structure TimeoutOptions where
  defaultMs : Option Int := none
  perCheck : List (String × Int) := []
deriving DecidableEq, Repr

/-- Source `CacheOptions` — source part_020:1022-1025. -/
structure CacheOptions where
  enabled : Option Bool := none
  ttlMs : Option Int := none
deriving DecidableEq, Repr

/-- Source `CircuitBreakerOptions` — source part_020:1044-1051. -/
structure CircuitBreakerOptions where
  failureThreshold : Option Int := none
  successThreshold : Option Int := none
  cooldownPeriodMs : Option Int := none
  halfOpenSuccesses : Option Int := none
  openStatus : Option HealthStatus := none
  halfOpenStatus : Option HealthStatus := none
deriving DecidableEq, Repr

/-- The fields of `NormalizedCheck` (source part_020:1794-1801) that the
timeout, aggregation and breaker logic read; the executable `fn` and the
breaker instance are supplied separately in the execution model. -/
structure NormalizedCheck where
  name : String
  timeoutMs : Option Int := none
  impact : HealthCheckImpact := .critical
deriving DecidableEq, Repr

/-- The fields of `HealthCheckOptions` (source part_020:1071-1080) read by
`resolveTimeoutMs`. -/
structure HealthCheckOptions where
  serviceName : String
  timeouts : Option TimeoutOptions := none
  cache : Option CacheOptions := none
deriving DecidableEq, Repr

/-- Record access `perCheck?.[name]` for the association-list model. -/
def lookupEntry : List (String × Int) → String → Option Int
  | [], _ => none
  | (k, v) :: rest, name => if k = name then some v else lookupEntry rest name

/-- Source `resolveTimeoutMs` — source part_020:1291-1303. -/
def resolveTimeoutMs (check : NormalizedCheck) (options : HealthCheckOptions) : Option Int :=
  match normalizeTimeoutValue check.timeoutMs with
  | some v => some v
  | none =>
    match normalizeTimeoutValue
        (options.timeouts.bind fun t => lookupEntry t.perCheck check.name) with
    | some v => some v
    | none =>
      normalizeTimeoutValue
        (some ((options.timeouts.bind TimeoutOptions.defaultMs).getD DEFAULT_CHECK_TIMEOUT_MS))

/-- A thrown/rejected JavaScript value: an `Error` instance carrying a
message, or any other value (source distinguishes them with
`error instanceof Error`, part_020:1959). -/
inductive ErrorValue where
  | errorObject (message : String)
  | other (rendering : String)
deriving DecidableEq, Repr

/-- How a settled promise settled: fulfilled with a `CheckResult`, or
rejected with a thrown value. -/
inductive Settlement where
  | fulfilled (result : CheckResult)
  | rejected (error : ErrorValue)
deriving DecidableEq, Repr

/-- Behaviour of one execution of a check's unit of work (`check.fn()`):
either it settles `atMs` milliseconds after it starts, or it stays pending
forever. -/
inductive ExecOutcome where
  | settles (atMs : Int) (outcome : Settlement)
  | pending
deriving DecidableEq, Repr

/-- The synthetic result built when the timeout wins the race —
source part_020:1332-1338. -/
def timeoutResult (name : String) (timeoutMs : Int) : CheckResult :=
  { status := .unhealthy,
    message := some ("Health check \"" ++ name ++ "\" timed out after " ++
      toString timeoutMs ++ "ms"),
    timedOut := true }

/-- Source `executeCheckWithTimeout` — source part_020:1312-1345.  `none` is the
settled value of a promise that never settles (possible only with no
timeout).  `!timeoutMs` is true for `undefined` and for `0`, so both run the
check with no race; with a positive deadline `n`, `Promise.race` yields the
check's own settlement when it settles strictly before `n` ms, and the
synthetic timeout result otherwise. -/
def executeCheckWithTimeout (name : String) (exec : ExecOutcome)
    (timeoutMs : Option Int) : Option Settlement :=
  match timeoutMs with
  | none =>
    match exec with
    | .settles _ s => some s
    | .pending => none
  | some n =>
    if n = 0 then
      match exec with
      | .settles _ s => some s
      | .pending => none
    else
      match exec with
      | .settles t s =>
        if t < n then some s else some (.fulfilled (timeoutResult name n))
      | .pending => some (.fulfilled (timeoutResult name n))

/-- C2: with a resolved positive timeout of `n` ms, an execution that has not
settled when the deadline elapses yields the synthetic
`unhealthy`/`timedOut` result with the exact timeout message, whatever the
execution would eventually have produced; an execution that settles before
the deadline yields its own settlement. -/
theorem executeCheckWithTimeout_spec (name : String) (exec : ExecOutcome)
    (n : Int) (hn : 0 < n) :
    (∀ t s, exec = .settles t s → t < n →
      executeCheckWithTimeout name exec (some n) = some s) ∧
    ((∀ t s, exec = .settles t s → n ≤ t) →
      executeCheckWithTimeout name exec (some n) =
        some (.fulfilled
          { status := .unhealthy,
            message := some ("Health check \"" ++ name ++ "\" timed out after " ++
              toString n ++ "ms"),
            timedOut := true })) := by
  have hn0 : ¬ n = 0 := by omega
  constructor
  · rintro t s rfl ht
    simp [executeCheckWithTimeout, hn0, ht]
  · intro hlate
    cases exec with
    | settles t s =>
      have := hlate t s rfl
      have hnt : ¬ t < n := by omega
      simp [executeCheckWithTimeout, hn0, hnt, timeoutResult]
    | pending =>
      simp [executeCheckWithTimeout, hn0, timeoutResult]

/-- Witness for C2 at concrete inputs: with a 3 ms timeout, an execution
settling at 5 ms is replaced by the synthetic timeout result, and an
execution settling at 1 ms keeps its own result. -/
theorem executeCheckWithTimeout_spec_witness :
    executeCheckWithTimeout "db"
        (.settles 5 (.fulfilled { status := .healthy })) (some 3) =
      some (.fulfilled
        { status := .unhealthy,
          message := some "Health check \"db\" timed out after 3ms",
          timedOut := true }) ∧
    executeCheckWithTimeout "db"
        (.settles 1 (.fulfilled { status := .healthy })) (some 3) =
      some (.fulfilled { status := .healthy }) := by
  constructor
  · have h := (executeCheckWithTimeout_spec "db"
      (.settles 5 (.fulfilled { status := .healthy })) 3 (by decide)).2
      (by intro t s hts; injection hts with h1 h2; omega)
    simpa using h
  · exact (executeCheckWithTimeout_spec "db"
      (.settles 1 (.fulfilled { status := .healthy })) 3 (by decide)).1
      1 (.fulfilled { status := .healthy }) rfl (by decide)

/-! ## Circuit breaker (part_020:1671-1792) -/

/-- Source `CircuitBreakerEvent` — source part_020:1671: `'opened' | 'closed'`. -/
inductive CircuitBreakerEvent where
  | opened
  | closed
deriving DecidableEq, Repr

/-- Source `CircuitBreakerRuntimeConfig` — source part_020:1767-1773. -/
structure CircuitBreakerRuntimeConfig where
  failureThreshold : Int
  successThreshold : Int
  cooldownPeriodMs : Int
  openStatus : HealthStatus
  halfOpenStatus : HealthStatus
deriving DecidableEq, Repr

/-- Source `DEFAULT_BREAKER_FAILURE_THRESHOLD` — source part_020:991. -/
def DEFAULT_BREAKER_FAILURE_THRESHOLD : Int := 3
/-- Source `DEFAULT_BREAKER_SUCCESS_THRESHOLD` — source part_020:992. -/
def DEFAULT_BREAKER_SUCCESS_THRESHOLD : Int := 2
/-- Source `DEFAULT_BREAKER_COOLDOWN_MS` — source part_020:993. -/
def DEFAULT_BREAKER_COOLDOWN_MS : Int := 10000

/-- Source `resolveCircuitBreakerConfig` — source part_020:1775-1792. -/
def resolveCircuitBreakerConfig (options : CircuitBreakerOptions) :
    CircuitBreakerRuntimeConfig :=
  { failureThreshold :=
      max 1 (options.failureThreshold.getD DEFAULT_BREAKER_FAILURE_THRESHOLD),
    successThreshold :=
      max 1 ((options.successThreshold.getD
        (options.halfOpenSuccesses.getD DEFAULT_BREAKER_SUCCESS_THRESHOLD))),
    cooldownPeriodMs := max 100 (options.cooldownPeriodMs.getD DEFAULT_BREAKER_COOLDOWN_MS),
    openStatus := options.openStatus.getD .degraded,
    halfOpenStatus := options.halfOpenStatus.getD .degraded }

/-- The mutable fields of the `CircuitBreaker` class (source part_020:1673-1685)
together with its immutable name and resolved config.  Methods that mutate
state become functions returning the updated record; `Date.now()` reads become
an explicit `now` argument. -/
structure CircuitBreaker where
  name : String
  state : CircuitBreakerState := .closed
  failureCount : Int := 0
  successCount : Int := 0
  openedAt : Int := 0
  config : CircuitBreakerRuntimeConfig
deriving DecidableEq, Repr

/-- The constructor `new CircuitBreaker(name, options)` — source part_020:1680-1685. -/
def CircuitBreaker.new (name : String) (options : CircuitBreakerOptions) : CircuitBreaker :=
  { name := name, config := resolveCircuitBreakerConfig options }

/-- Source `CircuitBreaker.trip` — source part_020:1752-1757. -/
def CircuitBreaker.trip (b : CircuitBreaker) (now : Int) : CircuitBreaker :=
  { b with state := .opened, openedAt := now, failureCount := 0, successCount := 0 }

/-- Source `CircuitBreaker.reset` — source part_020:1759-1764. -/
def CircuitBreaker.reset (b : CircuitBreaker) : CircuitBreaker :=
  { b with state := .closed, failureCount := 0, successCount := 0, openedAt := 0 }

/-- Source `CircuitBreaker.canExecute` — source part_020:1687-1698.  Returns the
boolean answer together with the (possibly transitioned) state. -/
def CircuitBreaker.canExecute (b : CircuitBreaker) (now : Int) :
    Bool × CircuitBreaker :=
  if b.state = .opened then
    if now - b.openedAt ≥ b.config.cooldownPeriodMs then
      (true, { b with state := .halfOpen, successCount := 0 })
    else
      (false, b)
  else
    (true, b)

/-- Source `CircuitBreaker.recordSuccess` — source part_020:1700-1712. -/
def CircuitBreaker.recordSuccess (b : CircuitBreaker) :
    Option CircuitBreakerEvent × CircuitBreaker :=
  if b.state = .halfOpen then
    let b' := { b with successCount := b.successCount + 1 }
    if b'.successCount ≥ b.config.successThreshold then
      (some .closed, b'.reset)
    else
      (none, b')
  else
    (none, { b with failureCount := 0 })

/-- Source `CircuitBreaker.recordFailure` — source part_020:1714-1727. -/
def CircuitBreaker.recordFailure (b : CircuitBreaker) (now : Int) :
    Option CircuitBreakerEvent × CircuitBreaker :=
  if b.state = .halfOpen then
    (some .opened, b.trip now)
  else
    let b' := { b with failureCount := b.failureCount + 1 }
    if b'.failureCount ≥ b.config.failureThreshold then
      (some .opened, b'.trip now)
    else
      (none, b')

/-- Source `CircuitBreaker.getBypassResult` — source part_020:1729-1746. -/
def CircuitBreaker.getBypassResult (b : CircuitBreaker) (now : Int) : CheckResult :=
  { status := if b.state = .opened then b.config.openStatus else b.config.halfOpenStatus,
    message := some (if b.state = .opened
      then "Circuit breaker open for \"" ++ b.name ++ "\""
      else "Circuit breaker half-open for \"" ++ b.name ++ "\""),
    circuitBreakerState := some b.state,
    retryAfterMs := some (if b.state = .opened
      then max 0 (b.config.cooldownPeriodMs - (now - b.openedAt))
      else 0) }

/-- Folding a sequence of `recordFailure` calls (one per settle time). -/
def recordFailures (b : CircuitBreaker) (times : List Int) : CircuitBreaker :=
  times.foldl (fun s t => (s.recordFailure t).2) b

lemma recordFailure_closed (b : CircuitBreaker) (now : Int) (h : b.state = .closed) :
    b.recordFailure now =
      if b.failureCount + 1 ≥ b.config.failureThreshold then
        (some .opened,
          { b with state := .opened, openedAt := now, failureCount := 0, successCount := 0 })
      else
        (none, { b with failureCount := b.failureCount + 1 }) := by
  rw [CircuitBreaker.recordFailure]
  rw [h]
  simp [CircuitBreaker.trip]

lemma recordFailures_closed (b : CircuitBreaker) (times : List Int)
    (hs : b.state = .closed)
    (hlt : b.failureCount + times.length < b.config.failureThreshold) :
    recordFailures b times = { b with failureCount := b.failureCount + times.length } := by
  induction times generalizing b with
  | nil =>
    simp only [recordFailures, List.foldl_nil, List.length_nil, Nat.cast_zero, Int.add_zero]
  | cons t ts ih =>
    have hstep : (b.recordFailure t).2 = { b with failureCount := b.failureCount + 1 } := by
      rw [recordFailure_closed b t hs]
      have : ¬ b.failureCount + 1 ≥ b.config.failureThreshold := by
        simp only [List.length_cons] at hlt
        push_cast at hlt
        omega
      simp [this]
    show recordFailures (b.recordFailure t).2 ts = _
    rw [hstep, ih]
    · simp only [List.length_cons]
      push_cast
      congr 1
      omega
    · exact hs
    · simp only [List.length_cons] at hlt
      push_cast at hlt ⊢
      omega

/-- C4: from a closed breaker with zero failure count and effective
`failureThreshold` `k`, the first `k - 1` consecutive recorded failures leave
the breaker closed, and the `k`-th trips it to open, emitting the `opened`
event, recording `openedAt` at the moment of that call and zeroing both
counters; a recorded success while closed resets the failure count to zero;
while open, `canExecute` refuses every call made before `cooldownPeriodMs`
has elapsed since `openedAt` and leaves the state untouched, and the first
call at or after that point flips the breaker to half-open and is allowed
through. -/
theorem circuitBreaker_trip_cooldown_spec :
    (∀ (b : CircuitBreaker) (times : List Int) (tk : Int),
      b.state = .closed → b.failureCount = 0 →
      (times.length : Int) + 1 = b.config.failureThreshold →
      (recordFailures b times).state = .closed ∧
      (recordFailures b times).failureCount = (times.length : Int) ∧
      (recordFailures b times).recordFailure tk =
        (some .opened,
          { recordFailures b times with
              state := .opened, openedAt := tk, failureCount := 0, successCount := 0 })) ∧
    (∀ b : CircuitBreaker, b.state = .closed →
      b.recordSuccess = (none, { b with failureCount := 0 })) ∧
    (∀ (b : CircuitBreaker) (now : Int), b.state = .opened →
      (now - b.openedAt < b.config.cooldownPeriodMs → b.canExecute now = (false, b)) ∧
      (b.config.cooldownPeriodMs ≤ now - b.openedAt →
        b.canExecute now = (true, { b with state := .halfOpen, successCount := 0 }))) := by
  refine ⟨?_, ?_, ?_⟩
  · intro b times tk hs hc hk
    have hfold := recordFailures_closed b times hs (by omega)
    have hstate : (recordFailures b times).state = .closed := by rw [hfold]; exact hs
    have hcount : (recordFailures b times).failureCount = (times.length : Int) := by
      rw [hfold]; simp [hc]
    refine ⟨hstate, hcount, ?_⟩
    rw [recordFailure_closed _ tk hstate]
    have : (recordFailures b times).failureCount + 1 ≥
        (recordFailures b times).config.failureThreshold := by
      have hcfg : (recordFailures b times).config = b.config := by rw [hfold]
      rw [hcount, hcfg]
      omega
    simp [this]
  · intro b hs
    rw [CircuitBreaker.recordSuccess, hs]
    simp
  · intro b now hs
    constructor
    · intro hlt
      rw [CircuitBreaker.canExecute, hs]
      have : ¬ now - b.openedAt ≥ b.config.cooldownPeriodMs := by omega
      simp [this]
    · intro hge
      rw [CircuitBreaker.canExecute, hs]
      have : now - b.openedAt ≥ b.config.cooldownPeriodMs := by omega
      simp [this]

/-- Concrete breaker used by the C4 witness: `failureThreshold = 2`,
`cooldownPeriodMs = 100`. -/
def cbWitnessBase : CircuitBreaker :=
  CircuitBreaker.new "db" { failureThreshold := some 2, cooldownPeriodMs := some 100 }

/-- Witness for C4 at concrete inputs: `cbWitnessBase` stays closed after one
failure, opens (recording `openedAt = 7`) on the second, refuses a call 99 ms
into the 100 ms cooldown, and lets a call at 100 ms through, flipping to half-open. -/
theorem circuitBreaker_trip_cooldown_spec_witness :
    (recordFailures cbWitnessBase [3]).state = .closed ∧
    ((recordFailures cbWitnessBase [3]).recordFailure 7).1 = some .opened ∧
    ((recordFailures cbWitnessBase [3]).recordFailure 7).2.openedAt = 7 ∧
    (((recordFailures cbWitnessBase [3]).recordFailure 7).2.canExecute 106).1 = false ∧
    (((recordFailures cbWitnessBase [3]).recordFailure 7).2.canExecute 107).1 = true ∧
    (((recordFailures cbWitnessBase [3]).recordFailure 7).2.canExecute 107).2.state =
      .halfOpen := by
  have h := circuitBreaker_trip_cooldown_spec
  have h1 := h.1 cbWitnessBase [3] 7 (by decide) (by decide) (by decide)
  have hb := h1.2.2
  have hopen : ((recordFailures cbWitnessBase [3]).recordFailure 7).2.state = .opened := by
    rw [hb]
  have h3 := h.2.2 ((recordFailures cbWitnessBase [3]).recordFailure 7).2
  refine ⟨h1.1, by rw [hb], by rw [hb], ?_, ?_, ?_⟩
  · have := (h3 106 hopen).1 (by rw [hb]; decide)
    rw [this]
  · have := (h3 107 hopen).2 (by rw [hb]; decide)
    rw [this]
  · have := (h3 107 hopen).2 (by rw [hb]; decide)
    rw [this]

/-! ## Circuit-breaker histories (C5) -/

/-- One call into the breaker's public API; the engine performs `canExecute`
before an execution and `recordSuccess`/`recordFailure` when a result
settles (part_020:1931, 1950-1952, 1966-1968). -/
inductive CircuitBreakerOp where
  | canExec (now : Int)
  | recSuccess
  | recFailure (now : Int)
deriving DecidableEq, Repr

/-- State reached after one API call (the boolean answer / emitted event are
dropped; only the state evolution matters for the counter invariant). -/
def applyOp (b : CircuitBreaker) : CircuitBreakerOp → CircuitBreaker
  | .canExec now => (b.canExecute now).2
  | .recSuccess => b.recordSuccess.2
  | .recFailure now => (b.recordFailure now).2

/-- State reached after a sequence of API calls. -/
def applyOps (b : CircuitBreaker) (ops : List CircuitBreakerOp) : CircuitBreaker :=
  ops.foldl applyOp b

/-- Breaker reached by the C5 counterexample trace: three gated sessions
start while the breaker is closed (`canExec` at 0 ms); their failures settle
at 0, 0 and 1 ms.  The second failure trips the breaker
(`failureThreshold = 2`); the third is recorded while it is already open and
leaves `failureCount = 1` without tripping again. -/
def cbCexOpen : CircuitBreaker :=
  applyOps (CircuitBreaker.new "db" { failureThreshold := some 2, cooldownPeriodMs := some 100 })
    [.canExec 0, .canExec 0, .canExec 0, .recFailure 0, .recFailure 0, .recFailure 1]

/-- Counterexample to C5: at the open → half-open transition performed by
`canExecute` once the 100 ms cooldown has elapsed, only `successCount` is
reset (part_020:1692); `failureCount` keeps the value 1 accumulated by the
failure recorded while the breaker was open, so the state transitions with a
non-zero counter. -/
theorem circuitBreaker_counter_reset_cex :
    cbCexOpen.state = .opened ∧
    (applyOp cbCexOpen (.canExec 100)).state = .halfOpen ∧
    (applyOp cbCexOpen (.canExec 100)).state ≠ cbCexOpen.state ∧
    (applyOp cbCexOpen (.canExec 100)).failureCount = 1 := by
  refine ⟨by decide, by decide, by decide, by decide⟩

/-- C5 as amended: after every state transition of a single API call, the
success counter is zero, and whenever the transition lands in `closed` or
`open` (the `reset` and `trip` paths) the failure counter is zero as well;
only the open → half-open transition of `canExecute` can carry a non-zero
`failureCount` across. -/
theorem circuitBreaker_counter_reset_spec (b : CircuitBreaker) (op : CircuitBreakerOp)
    (h : (applyOp b op).state ≠ b.state) :
    (applyOp b op).successCount = 0 ∧
    ((applyOp b op).state = .closed ∨ (applyOp b op).state = .opened →
      (applyOp b op).failureCount = 0) := by
  cases op with
  | canExec now =>
    by_cases hs : b.state = .opened
    · by_cases hc : now - b.openedAt ≥ b.config.cooldownPeriodMs
      · have : applyOp b (.canExec now) = { b with state := .halfOpen, successCount := 0 } := by
          simp [applyOp, CircuitBreaker.canExecute, hs, hc]
        rw [this]
        refine ⟨rfl, ?_⟩
        rintro (hcl | hop)
        · exact absurd (show CircuitBreakerState.halfOpen = .closed from hcl) (by decide)
        · exact absurd (show CircuitBreakerState.halfOpen = .opened from hop) (by decide)
      · have : applyOp b (.canExec now) = b := by
          simp [applyOp, CircuitBreaker.canExecute, hs, hc]
        rw [this] at h
        exact absurd rfl h
    · have : applyOp b (.canExec now) = b := by
        simp [applyOp, CircuitBreaker.canExecute, hs]
      rw [this] at h
      exact absurd rfl h
  | recSuccess =>
    by_cases hs : b.state = .halfOpen
    · by_cases hc : b.successCount + 1 ≥ b.config.successThreshold
      · have : applyOp b .recSuccess = CircuitBreaker.reset
            { b with successCount := b.successCount + 1 } := by
          simp [applyOp, CircuitBreaker.recordSuccess, hs, hc]
        rw [this]
        exact ⟨rfl, fun _ => rfl⟩
      · have : applyOp b .recSuccess = { b with successCount := b.successCount + 1 } := by
          simp [applyOp, CircuitBreaker.recordSuccess, hs, hc]
        rw [this] at h
        exact absurd rfl h
    · have : applyOp b .recSuccess = { b with failureCount := 0 } := by
        simp [applyOp, CircuitBreaker.recordSuccess, hs]
      rw [this] at h
      exact absurd rfl h
  | recFailure now =>
    by_cases hs : b.state = .halfOpen
    · have : applyOp b (.recFailure now) = b.trip now := by
        simp [applyOp, CircuitBreaker.recordFailure, hs]
      rw [this]
      exact ⟨rfl, fun _ => rfl⟩
    · by_cases hc : b.failureCount + 1 ≥ b.config.failureThreshold
      · have : applyOp b (.recFailure now) = CircuitBreaker.trip
            { b with failureCount := b.failureCount + 1 } now := by
          simp [applyOp, CircuitBreaker.recordFailure, hs, hc]
        rw [this]
        exact ⟨rfl, fun _ => rfl⟩
      · have : applyOp b (.recFailure now) = { b with failureCount := b.failureCount + 1 } := by
          simp [applyOp, CircuitBreaker.recordFailure, hs, hc]
        rw [this] at h
        exact absurd rfl h

/-- Witness for the amended C5: a fresh breaker with `failureThreshold = 1`
trips on its first recorded failure; both counters are zero right after the
closed → open transition. -/
theorem circuitBreaker_counter_reset_spec_witness :
    (applyOp (CircuitBreaker.new "x" { failureThreshold := some 1 }) (.recFailure 7)).state ≠
      (CircuitBreaker.new "x" { failureThreshold := some 1 }).state ∧
    (applyOp (CircuitBreaker.new "x" { failureThreshold := some 1 }) (.recFailure 7)).successCount = 0 ∧
    (applyOp (CircuitBreaker.new "x" { failureThreshold := some 1 }) (.recFailure 7)).failureCount = 0 := by
  have h := circuitBreaker_counter_reset_spec
    (CircuitBreaker.new "x" { failureThreshold := some 1 }) (.recFailure 7) (by decide)
  exact ⟨by decide, h.1, h.2 (Or.inr (by decide))⟩

/-! ## Breaker bookkeeping from results (C10, part_020:1417-1429) -/

/-- Source `isSuccessfulResult` — source part_020:1427-1429:
`result.status === 'healthy' && !result.timedOut`. -/
def isSuccessfulResult (result : CheckResult) : Bool :=
  (result.status == .healthy) && !result.timedOut

/-- Source `updateCircuitBreakerState` — source part_020:1417-1425.  The source's
`recordFailure` reads `Date.now()` through `trip`; the model threads it as
the explicit `now` argument. -/
def updateCircuitBreakerState (breaker : CircuitBreaker) (result : CheckResult)
    (now : Int) : Option CircuitBreakerEvent × CircuitBreaker :=
  if isSuccessfulResult result then
    breaker.recordSuccess
  else
    breaker.recordFailure now

/-- C10: a settled result is recorded as a breaker success iff its status is
`healthy` and `timedOut` is not set; every other result — a `degraded` one
included — is recorded as a failure, and while the breaker is closed and
below threshold such a result increments `failureCount`, counting toward
`failureThreshold`. -/
theorem updateCircuitBreakerState_spec (b : CircuitBreaker) (r : CheckResult) (now : Int) :
    (r.status = .healthy ∧ r.timedOut = false →
      updateCircuitBreakerState b r now = b.recordSuccess) ∧
    (r.status ≠ .healthy ∨ r.timedOut = true →
      updateCircuitBreakerState b r now = b.recordFailure now) ∧
    (b.state = .closed → r.status = .degraded →
      (updateCircuitBreakerState b r now).2.failureCount =
        (if b.failureCount + 1 ≥ b.config.failureThreshold then 0 else b.failureCount + 1)) := by
  refine ⟨?_, ?_, ?_⟩
  · rintro ⟨h1, h2⟩
    simp [updateCircuitBreakerState, isSuccessfulResult, h1, h2]
  · intro h
    have hfail : isSuccessfulResult r = false := by
      rcases h with h | h
      · simp [isSuccessfulResult]
        intro hh
        exact absurd hh h
      · simp [isSuccessfulResult, h]
    simp [updateCircuitBreakerState, hfail]
  · intro hs hdeg
    have hfail : isSuccessfulResult r = false := by
      simp [isSuccessfulResult, hdeg]
    rw [updateCircuitBreakerState, hfail]
    simp only [Bool.false_eq_true, if_false]
    rw [recordFailure_closed b now hs]
    by_cases hth : b.failureCount + 1 ≥ b.config.failureThreshold
    · simp [hth]
    · simp [hth]

/-- Witness for C10: a `degraded`, non-timed-out result on a closed breaker
with threshold 3 is recorded as a failure and raises `failureCount` to 1;
a `healthy` result is recorded as a success. -/
theorem updateCircuitBreakerState_spec_witness :
    (updateCircuitBreakerState (CircuitBreaker.new "db" {}) { status := .degraded } 0).2.failureCount = 1 ∧
    updateCircuitBreakerState (CircuitBreaker.new "db" {}) { status := .healthy } 0 =
      (CircuitBreaker.new "db" {}).recordSuccess := by
  constructor
  · have h := (updateCircuitBreakerState_spec (CircuitBreaker.new "db" {})
      { status := .degraded } 0).2.2 (by decide) (by decide)
    rw [h]
    decide
  · exact (updateCircuitBreakerState_spec (CircuitBreaker.new "db" {})
      { status := .healthy } 0).1 ⟨rfl, rfl⟩

/-! ## Timeout precedence (C3) -/

lemma normalizeTimeoutValue_some_eq_none (v : Int) :
    normalizeTimeoutValue (some v) = none ↔ v ≤ 0 := by
  unfold normalizeTimeoutValue
  split <;> simp_all

/-- Counterexample to C3: a check whose own `timeoutMs` is `0` (a value ≤ 0
selected at the first level of the precedence chain) does not run without a
timeout: `normalizeTimeoutValue` turns the `0` into `undefined`, so
resolution falls through to the per-check override (here 500 ms) or, absent
any other configuration, to the built-in 2000 ms default — a timeout is
still enforced. -/
theorem resolveTimeoutMs_nonpositive_cex :
    ({ name := "db", timeoutMs := some 0 } : NormalizedCheck).timeoutMs = some 0 ∧
    resolveTimeoutMs { name := "db", timeoutMs := some 0 }
      { serviceName := "svc",
        timeouts := some { defaultMs := none, perCheck := [("db", 500)] } } = some 500 ∧
    resolveTimeoutMs { name := "db", timeoutMs := some 0 } { serviceName := "svc" } =
      some 2000 := by
  refine ⟨rfl, by decide, by decide⟩

/-- C3 as amended: a zero/negative (or absent) value at the check level or
the per-check level is treated as unset and resolution falls through to the
next level; the timeout race is disabled (no timeout enforced, every
execution's own settlement is returned) exactly when all three levels yield
nothing positive — the check value normalizes to `undefined`, the per-check
override normalizes to `undefined`, and the effective handler default
(`defaultMs ?? 2000`) is ≤ 0. -/
theorem resolveTimeoutMs_disabled_spec (check : NormalizedCheck)
    (options : HealthCheckOptions) :
    (resolveTimeoutMs check options = none ↔
      (normalizeTimeoutValue check.timeoutMs = none ∧
       normalizeTimeoutValue
         (options.timeouts.bind fun t => lookupEntry t.perCheck check.name) = none ∧
       (options.timeouts.bind TimeoutOptions.defaultMs).getD DEFAULT_CHECK_TIMEOUT_MS ≤ 0)) ∧
    (resolveTimeoutMs check options = none →
      ∀ (t : Int) (s : Settlement),
        executeCheckWithTimeout check.name (.settles t s) (resolveTimeoutMs check options) =
          some s) := by
  constructor
  · rcases hA : normalizeTimeoutValue check.timeoutMs with _ | v
    · rcases hB : normalizeTimeoutValue
          (options.timeouts.bind fun t => lookupEntry t.perCheck check.name) with _ | w
      · simp [resolveTimeoutMs, hA, hB, normalizeTimeoutValue_some_eq_none]
      · simp [resolveTimeoutMs, hA, hB]
    · simp [resolveTimeoutMs, hA]
  · intro h t s
    rw [h]
    rfl

/-- Witness for the amended C3: with `timeoutMs = -5` on the check, no
per-check override and `defaultMs = 0`, resolution yields no timeout and a
very late execution still returns its own settlement. -/
theorem resolveTimeoutMs_disabled_spec_witness :
    resolveTimeoutMs { name := "db", timeoutMs := some (-5) }
      { serviceName := "svc", timeouts := some { defaultMs := some 0 } } = none ∧
    executeCheckWithTimeout "db" (.settles 99999 (.fulfilled { status := .healthy }))
      (resolveTimeoutMs { name := "db", timeoutMs := some (-5) }
        { serviceName := "svc", timeouts := some { defaultMs := some 0 } }) =
      some (.fulfilled { status := .healthy }) := by
  have h := (resolveTimeoutMs_disabled_spec { name := "db", timeoutMs := some (-5) }
    { serviceName := "svc", timeouts := some { defaultMs := some 0 } }).2 (by decide)
  exact ⟨by decide, h 99999 (.fulfilled { status := .healthy })⟩

/-! ## Cache layer (`createCachedHandler`, part_020:1358-1415) -/

/-- Source `DEFAULT_CACHE_TTL_MS` — source part_020:990. -/
def DEFAULT_CACHE_TTL_MS : Int := 2000

/-- Source `shouldUseCache` — source part_020:1393-1407 (`typeof ttlMs === 'number'`
restricts the ≤ 0 test to numeric values; the `Int` model carries exactly
those). -/
def shouldUseCache (cacheOptions : Option CacheOptions) : Bool :=
  match cacheOptions with
  | none => true
  | some o =>
    if o.enabled = some false then false
    else
      match o.ttlMs with
      | some t => if t ≤ 0 then false else true
      | none => true

/-- Source `resolveCacheTtl` — source part_020:1409-1415 (`cacheOptions?.ttlMs &&
cacheOptions.ttlMs > 0`: a `0` value is falsy, so both `0` and negative
values fall back to the default). -/
def resolveCacheTtl (cacheOptions : Option CacheOptions) : Int :=
  match cacheOptions with
  | some o =>
    match o.ttlMs with
    | some t => if t > 0 then t else DEFAULT_CACHE_TTL_MS
    | none => DEFAULT_CACHE_TTL_MS
  | none => DEFAULT_CACHE_TTL_MS

/-- The closure state of the wrapper returned by `createCachedHandler`
(part_020:1367-1368): `cached : \x7b value, expiresAt \x7d | null` and the
in-flight marker (the shared promise is modelled by the `joined` outcome). -/
structure CacheState (T : Type) where
  cached : Option (T × Int) := none
  inFlight : Bool := false
deriving DecidableEq, Repr

/-- Events driving the wrapper: a caller invokes it at time `now`; the
in-flight factory computation fulfils at `now` with a result; or it rejects
(the `finally` clears the in-flight marker either way, part_020:1385-1387). -/
inductive CacheEvent (T : Type) where
  | call (now : Int)
  | completeOk (now : Int) (result : T)
  | completeErr
deriving DecidableEq, Repr

/-- What a caller experiences: a fresh-cache hit (the cached value is
returned, factory not invoked); joining the in-flight computation (factory
not invoked, the caller receives that computation's result); or starting the
factory. -/
inductive CallOutcome (T : Type) where
  | hit (value : T)
  | joined
  | started
deriving DecidableEq, Repr

/-- One step of the wrapper body (part_020:1370-1390): the `call` case is the
returned async closure; `completeOk` is the `.then` handler writing
`cached = \x7b value, expiresAt: Date.now() + ttlMs \x7d` plus the `finally`;
`completeErr` is the `finally` alone. -/
def cacheStep {T : Type} (ttlMs : Int) (st : CacheState T) :
    CacheEvent T → CacheState T × Option (CallOutcome T)
  | .call now =>
    match st.cached with
    | some (v, expiresAt) =>
      if expiresAt > now then (st, some (.hit v))
      else if st.inFlight then (st, some .joined)
      else ({ st with inFlight := true }, some .started)
    | none =>
      if st.inFlight then (st, some .joined)
      else ({ st with inFlight := true }, some .started)
  | .completeOk now result => ({ cached := some (result, now + ttlMs), inFlight := false }, none)
  | .completeErr => ({ st with inFlight := false }, none)

/-- Folding a sequence of events, collecting the call outcomes in order. -/
def cacheRun {T : Type} (ttlMs : Int) : CacheState T → List (CacheEvent T) →
    CacheState T × List (CallOutcome T)
  | st, [] => (st, [])
  | st, e :: es =>
    let step := cacheStep ttlMs st e
    let rest := cacheRun ttlMs step.1 es
    (rest.1, step.2.toList ++ rest.2)

/-- The value returned by `createCachedHandler` (part_020:1358-1391): either
the untouched factory (caching disabled) or the caching wrapper with its
resolved TTL and fresh closure state. -/
inductive CachedHandler where
  | bare
  | wrapped (ttlMs : Int)
deriving DecidableEq, Repr

/-- Source `createCachedHandler` — source part_020:1358-1364. -/
def createCachedHandler (cacheOptions : Option CacheOptions) : CachedHandler :=
  if shouldUseCache cacheOptions then .wrapped (resolveCacheTtl cacheOptions) else .bare

/-- Step semantics of a `CachedHandler`: the bare factory runs the factory on
every call (each caller receives that run's own result) and keeps no state;
the wrapper steps through `cacheStep`. -/
def handlerStep {T : Type} : CachedHandler → CacheState T → CacheEvent T →
    CacheState T × Option (CallOutcome T)
  | .bare, st, .call _ => (st, some .started)
  | .bare, st, .completeOk _ _ => (st, none)
  | .bare, st, .completeErr => (st, none)
  | .wrapped ttl, st, e => cacheStep ttl st e

lemma cacheRun_append {T : Type} (ttl : Int) (st : CacheState T)
    (es1 es2 : List (CacheEvent T)) :
    cacheRun ttl st (es1 ++ es2) =
      ((cacheRun ttl (cacheRun ttl st es1).1 es2).1,
       (cacheRun ttl st es1).2 ++ (cacheRun ttl (cacheRun ttl st es1).1 es2).2) := by
  induction es1 generalizing st with
  | nil => simp [cacheRun]
  | cons e es ih =>
    simp only [List.cons_append, cacheRun, List.append_eq]
    rw [ih]
    simp [List.append_assoc]

lemma cacheRun_joins {T : Type} (ttl : Int) (us : List Int) (st : CacheState T)
    (hc : st.cached = none) (hf : st.inFlight = true) :
    cacheRun ttl st (us.map .call) = (st, us.map fun _ => .joined) := by
  induction us with
  | nil => simp [cacheRun]
  | cons u us ih =>
    have hstep : cacheStep ttl st (.call u) = (st, some .joined) := by
      simp [cacheStep, hc, hf]
    simp only [List.map_cons, cacheRun, hstep, ih]
    simp

lemma cacheRun_hits {T : Type} (ttl : Int) (ts : List Int) (st : CacheState T)
    (v : T) (e : Int) (hc : st.cached = some (v, e)) (hall : ∀ t ∈ ts, e > t) :
    cacheRun ttl st (ts.map .call) = (st, ts.map fun _ => .hit v) := by
  induction ts with
  | nil => simp [cacheRun]
  | cons t ts ih =>
    have hstep : cacheStep ttl st (.call t) = (st, some (.hit v)) := by
      simp [cacheStep, hc, hall t (by simp)]
    simp only [List.map_cons, cacheRun, hstep]
    rw [ih (fun x hx => hall x (by simp [hx]))]
    simp

/-- C6: with caching enabled and TTL `ttl > 0` (any `ttl`, in fact): a call
finding a cached value that has not expired returns it without invoking the
factory and without touching the state; a call finding the in-flight marker
joins that computation (all concurrent callers await and receive the same
result); a call finding an expired entry and no in-flight computation starts
the factory again; and along a whole window — first call, `us` concurrent
calls while the factory runs, completion at `t1`, then `ts` calls before
`t1 + ttl` — the factory is started exactly once: the outcome trace is one
`started`, then only `joined`s and `hit`s. -/
theorem cachedHandler_ttl_spec {T : Type} (ttl : Int) :
    (∀ (st : CacheState T) (v : T) (e now : Int),
      st.cached = some (v, e) → e > now →
      cacheStep ttl st (.call now) = (st, some (.hit v))) ∧
    (∀ (st : CacheState T) (now : Int),
      st.inFlight = true →
      (st.cached = none ∨ ∃ v e, st.cached = some (v, e) ∧ e ≤ now) →
      cacheStep ttl st (.call now) = (st, some .joined)) ∧
    (∀ (st : CacheState T) (v : T) (e now : Int),
      st.cached = some (v, e) → e ≤ now → st.inFlight = false →
      cacheStep ttl st (.call now) = ({ st with inFlight := true }, some .started)) ∧
    (∀ (t0 t1 : Int) (us ts : List Int) (r : T),
      (∀ t ∈ ts, t1 + ttl > t) →
      (cacheRun ttl {} ([CacheEvent.call t0] ++ us.map CacheEvent.call ++
        [CacheEvent.completeOk t1 r] ++ ts.map CacheEvent.call)).2 =
        [CallOutcome.started] ++ us.map (fun _ => CallOutcome.joined) ++
          ts.map (fun _ => CallOutcome.hit r)) := by
  refine ⟨?_, ?_, ?_, ?_⟩
  · intro st v e now hc hfresh
    simp [cacheStep, hc, hfresh]
  · intro st now hf hc
    rcases hc with hc | ⟨v, e, hc, he⟩
    · simp [cacheStep, hc, hf]
    · have : ¬ e > now := by omega
      simp [cacheStep, hc, hf, this]
  · intro st v e now hc he hf
    have : ¬ e > now := by omega
    simp [cacheStep, hc, hf, this]
  · intro t0 t1 us ts r hts
    have h0 : cacheRun ttl ({} : CacheState T) [CacheEvent.call t0] =
        ({ cached := none, inFlight := true }, [CallOutcome.started]) := by
      simp [cacheRun, cacheStep]
    have h1 : cacheRun ttl ({ cached := none, inFlight := true } : CacheState T)
        (us.map CacheEvent.call) =
        ({ cached := none, inFlight := true }, us.map fun _ => CallOutcome.joined) :=
      cacheRun_joins ttl us _ rfl rfl
    have h2 : cacheRun ttl ({ cached := none, inFlight := true } : CacheState T)
        [CacheEvent.completeOk t1 r] =
        ({ cached := some (r, t1 + ttl), inFlight := false }, []) := by
      simp [cacheRun, cacheStep]
    have h3 : cacheRun ttl ({ cached := some (r, t1 + ttl), inFlight := false } : CacheState T)
        (ts.map CacheEvent.call) =
        ({ cached := some (r, t1 + ttl), inFlight := false },
          ts.map fun _ => CallOutcome.hit r) :=
      cacheRun_hits ttl ts _ r (t1 + ttl) rfl hts
    rw [cacheRun_append, cacheRun_append, cacheRun_append, h0]
    simp only [h0, h1, h2, h3]
    simp

/-- Witness for C6: TTL 10, a first call at 0, two calls joining while the
factory runs, completion with value 42 at time 5, and two further calls at 6
and 14 (both before expiry at 15): exactly one `started`, two `joined`s, two
`hit 42`s. -/
theorem cachedHandler_ttl_spec_witness :
    (cacheRun 10 {} ([CacheEvent.call 0] ++ [1, 2].map CacheEvent.call ++
      [CacheEvent.completeOk 5 (42 : Nat)] ++ [6, 14].map CacheEvent.call)).2 =
      [CallOutcome.started, .joined, .joined, .hit 42, .hit 42] := by
  have h := (cachedHandler_ttl_spec (T := Nat) 10).2.2.2 0 5 [1, 2] [6, 14] 42
    (by decide)
  simpa using h

/-- C7: `createCachedHandler` returns the untouched bare factory exactly when
caching is disabled — the options object carries `enabled: false`, or a
numeric `ttlMs ≤ 0` — and the bare factory invokes the underlying factory on
every call, returns that run's own result, and retains nothing between calls
(its state never changes). -/
theorem createCachedHandler_disabled_spec (o : CacheOptions) :
    (createCachedHandler (some o) = .bare ↔
      (o.enabled = some false ∨ ∃ t, o.ttlMs = some t ∧ t ≤ 0)) ∧
    (∀ (T : Type) (st : CacheState T) (now : Int),
      handlerStep .bare st (.call now) = (st, some .started)) ∧
    (∀ (T : Type) (st : CacheState T) (e : CacheEvent T),
      (handlerStep .bare st e).1 = st) := by
  obtain ⟨en, ttl⟩ := o
  refine ⟨?_, fun T st now => rfl, fun T st e => by cases e <;> rfl⟩
  have hiff : shouldUseCache (some ⟨en, ttl⟩) = false ↔
      (en = some false ∨ ∃ t, ttl = some t ∧ t ≤ 0) := by
    rcases en with _ | b
    · rcases ttl with _ | t
      · simp [shouldUseCache]
      · by_cases ht : t ≤ 0 <;> simp [shouldUseCache, ht]
    · cases b
      · simp [shouldUseCache]
      · rcases ttl with _ | t
        · simp [shouldUseCache]
        · by_cases ht : t ≤ 0 <;> simp [shouldUseCache, ht]
  have hbare : createCachedHandler (some ⟨en, ttl⟩) = .bare ↔
      shouldUseCache (some ⟨en, ttl⟩) = false := by
    cases hu : shouldUseCache (some ⟨en, ttl⟩) with
    | false => simp [createCachedHandler, hu]
    | true => simp [createCachedHandler, hu]
  exact hbare.trans hiff

/-- Witness for C7: `enabled: false` yields the bare factory; so does
`ttlMs = 0`; and a bare-factory call starts the factory leaving the (empty)
state unchanged. -/
theorem createCachedHandler_disabled_spec_witness :
    createCachedHandler (some { enabled := some false }) = .bare ∧
    createCachedHandler (some { ttlMs := some 0 }) = .bare ∧
    handlerStep .bare ({} : CacheState Nat) (.call 3) = ({}, some .started) := by
  refine ⟨?_, ?_, ?_⟩
  · exact (createCachedHandler_disabled_spec { enabled := some false }).1.mpr
      (Or.inl rfl)
  · exact (createCachedHandler_disabled_spec { ttlMs := some 0 }).1.mpr
      (Or.inr ⟨0, rfl, le_refl 0⟩)
  · exact (createCachedHandler_disabled_spec { enabled := some false }).2.1 Nat {} 3

/-! ## Running checks (`runHealthChecks`, part_020:1908-1989) -/

/-- Source `error instanceof Error ? error.message : 'Unknown error'`
(part_020:1959). -/
def errorMessage : ErrorValue → String
  | .errorObject m => m
  | .other _ => "Unknown error"

/-- Source `withResponseTime` — source part_020:1347-1356.  When the result already
carries a numeric `responseTime` the source returns the *same object*
(`return result;`); otherwise it builds a fresh spread copy with
`responseTime` filled in. -/
def withResponseTime (result : CheckResult) (durationMs : Int) : CheckResult :=
  match result.responseTime with
  | some _ => result
  | none => { result with responseTime := some durationMs }

/-- True exactly when the source's `withResponseTime` takes its
`typeof result.responseTime === 'number'` branch (part_020:1348-1350) and
returns its argument object itself rather than a fresh copy. -/
def withResponseTimeAliases (result : CheckResult) : Bool :=
  result.responseTime.isSome

/-- How one check's execution went inside `runHealthChecks`: the breaker's
`canExecute` refused it (part_020:1931-1941), or the timeout-bounded
execution settled — fulfilled or rejected — after `durationMs` ms
(part_020:1943-1972). -/
inductive CheckExecution where
  | blocked (breaker : CircuitBreaker) (now : Int)
  | settled (outcome : Settlement) (durationMs : Int)
deriving DecidableEq, Repr

/-- The result stored for one check by the fan-out callback of
`runHealthChecks`: the bypass path (part_020:1932-1937), the settled path
(part_020:1944-1947: `withResponseTime` then `finalResult.impact =
check.impact`), and the catch path (part_020:1957-1962). -/
def runCheck (check : NormalizedCheck) (ev : CheckExecution) : CheckResult :=
  match ev with
  | .blocked b now =>
    { b.getBypassResult now with responseTime := some 0, impact := some check.impact }
  | .settled (.fulfilled result) d =>
    { withResponseTime result d with impact := some check.impact }
  | .settled (.rejected error) d =>
    { status := .unhealthy, message := some (errorMessage error),
      responseTime := some d, impact := some check.impact }

/-- JS record assignment `checkResults[name] = r`: update in place if the key
exists, append otherwise. -/
def setResult : List (String × CheckResult) → String → CheckResult →
    List (String × CheckResult)
  | [], name, r => [(name, r)]
  | (k, v) :: rest, name, r =>
    if k = name then (k, r) :: rest else (k, v) :: setResult rest name r

/-- JS record read `checkResults[name]`. -/
def lookupResult : List (String × CheckResult) → String → Option CheckResult
  | [], _ => none
  | (k, v) :: rest, name => if k = name then some v else lookupResult rest name

/-- Source `runHealthChecks` — source part_020:1908-1989, after normalization and
with each check's execution outcome given as data.  The fan-out writes one
result per check into `checkResults`, the fan-in aggregates with
`determineOverallStatus` and builds the response.  The function is total: a
rejected execution is caught (part_020:1956) and stored as an `unhealthy`
result, never surfaced as a rejection of the aggregate. -/
def runHealthChecks (serviceName timestamp : String)
    (inputs : List (NormalizedCheck × CheckExecution)) : HealthResponse :=
  let checkResults := inputs.foldl
    (fun acc ce => setResult acc ce.1.name (runCheck ce.1 ce.2)) []
  { status := determineOverallStatus checkResults,
    timestamp := timestamp,
    service := serviceName,
    checks := some checkResults }

lemma lookupResult_set_self (m : List (String × CheckResult)) (k : String) (r : CheckResult) :
    lookupResult (setResult m k r) k = some r := by
  induction m with
  | nil => simp [setResult, lookupResult]
  | cons p rest ih =>
    obtain ⟨a, v⟩ := p
    by_cases h : a = k
    · simp [setResult, lookupResult, h]
    · simp [setResult, lookupResult, h, ih]

lemma lookupResult_set_ne (m : List (String × CheckResult)) (k k' : String)
    (r : CheckResult) (h : k ≠ k') :
    lookupResult (setResult m k' r) k = lookupResult m k := by
  induction m with
  | nil => simp [setResult, lookupResult, Ne.symm h]
  | cons p rest ih =>
    obtain ⟨a, v⟩ := p
    by_cases ha : a = k'
    · subst ha
      simp [setResult, lookupResult, Ne.symm h]
    · simp only [setResult, if_neg ha]
      by_cases hak : a = k
      · simp [lookupResult, hak]
      · simp [lookupResult, hak, ih]

lemma lookup_fold_not_mem (ps : List (String × CheckResult))
    (m : List (String × CheckResult)) (k : String) (h : ∀ p ∈ ps, p.1 ≠ k) :
    lookupResult (ps.foldl (fun acc q => setResult acc q.1 q.2) m) k =
      lookupResult m k := by
  induction ps generalizing m with
  | nil => rfl
  | cons p rest ih =>
    simp only [List.foldl_cons]
    rw [ih _ (fun q hq => h q (by simp [hq]))]
    exact lookupResult_set_ne m k p.1 p.2 (fun he => h p (by simp) he.symm)

lemma lookup_fold_mem (ps : List (String × CheckResult))
    (m : List (String × CheckResult)) (k : String) (v : CheckResult)
    (hnd : (ps.map Prod.fst).Nodup) (hmem : (k, v) ∈ ps) :
    lookupResult (ps.foldl (fun acc q => setResult acc q.1 q.2) m) k = some v := by
  induction ps generalizing m with
  | nil => cases hmem
  | cons p rest ih =>
    simp only [List.map_cons, List.nodup_cons] at hnd
    simp only [List.foldl_cons]
    rcases List.mem_cons.mp hmem with heq | hmem'
    · subst heq
      have hnk : ∀ q ∈ rest, q.1 ≠ k := by
        intro q hq hqk
        exact hnd.1 (List.mem_map.mpr ⟨q, hq, hqk⟩)
      rw [lookup_fold_not_mem rest _ k hnk]
      exact lookupResult_set_self m k v
    · exact ih _ hnd.2 hmem'

lemma runHealthChecks_lookup (serviceName timestamp : String)
    (inputs : List (NormalizedCheck × CheckExecution))
    (hnd : (inputs.map fun ce => ce.1.name).Nodup) :
    ∀ ce ∈ inputs,
      lookupResult ((runHealthChecks serviceName timestamp inputs).checks.getD [])
        ce.1.name = some (runCheck ce.1 ce.2) := by
  intro ce hce
  have hchecks : (runHealthChecks serviceName timestamp inputs).checks =
      some (inputs.foldl (fun acc p => setResult acc p.1.name (runCheck p.1 p.2)) []) := rfl
  rw [hchecks]
  simp only [Option.getD_some]
  have hfold : inputs.foldl (fun acc p => setResult acc p.1.name (runCheck p.1 p.2))
      ([] : List (String × CheckResult)) =
      (inputs.map fun p => (p.1.name, runCheck p.1 p.2)).foldl
        (fun acc q => setResult acc q.1 q.2) [] := by
    rw [List.foldl_map]
  rw [hfold]
  apply lookup_fold_mem
  · rw [List.map_map]
    simpa [Function.comp] using hnd
  · exact List.mem_map.mpr ⟨ce, hce, rfl⟩

/-- C8: `runHealthChecks` (with distinct check names, as `Object.entries` of
a record guarantees) never loses a check to an error: the response always
carries a checks map, every check has an entry equal to the result computed
for it, and a check whose execution rejected is stored as an `unhealthy`
result carrying the thrown error's message (or `'Unknown error'` for
non-`Error` values) — the aggregate response is produced in every case. -/
theorem runHealthChecks_error_containment (serviceName timestamp : String)
    (inputs : List (NormalizedCheck × CheckExecution))
    (hnd : (inputs.map fun ce => ce.1.name).Nodup) :
    (runHealthChecks serviceName timestamp inputs).checks.isSome = true ∧
    (∀ ce ∈ inputs,
      lookupResult ((runHealthChecks serviceName timestamp inputs).checks.getD [])
        ce.1.name = some (runCheck ce.1 ce.2)) ∧
    (∀ ce ∈ inputs, ∀ (error : ErrorValue) (d : Int),
      ce.2 = .settled (.rejected error) d →
      lookupResult ((runHealthChecks serviceName timestamp inputs).checks.getD [])
        ce.1.name =
        some { status := .unhealthy, message := some (errorMessage error),
               responseTime := some d, impact := some ce.1.impact }) := by
  refine ⟨rfl, runHealthChecks_lookup serviceName timestamp inputs hnd, ?_⟩
  intro ce hce error d hev
  have h := runHealthChecks_lookup serviceName timestamp inputs hnd ce hce
  rw [hev] at h
  exact h

/-- Witness for C8: one check named `db` whose execution rejects with
`new Error("boom")` after 12 ms; the response stores an `unhealthy` entry
with message `boom`. -/
theorem runHealthChecks_error_containment_witness :
    lookupResult ((runHealthChecks "svc" "2026-01-01T00:00:00.000Z"
        [({ name := "db" }, .settled (.rejected (.errorObject "boom")) 12)]).checks.getD [])
      "db" =
      some { status := .unhealthy, message := some "boom", responseTime := some 12,
             impact := some .critical } := by
  have h := (runHealthChecks_error_containment "svc" "2026-01-01T00:00:00.000Z"
    [({ name := "db" }, .settled (.rejected (.errorObject "boom")) 12)] (by decide)).2.2
    ({ name := "db" }, .settled (.rejected (.errorObject "boom")) 12) (by simp)
    (.errorObject "boom") 12 rfl
  exact h

/-- Counterexample to C9: when a check's own result already carries a numeric
`responseTime`, the source's `withResponseTime` returns that same object
(`return result;`, part_020:1348-1350), and the engine then executes
`finalResult.impact = check.impact` (part_020:1946) — an in-place field write
on the very object the check returned.  In the functional model:
`withResponseTime` is the identity on such a result, yet the stored result
differs from the check's result (its `impact` field has been written), so in
the source the check's object was mutated after construction. -/
theorem checkResult_mutation_cex :
    withResponseTime { status := .healthy, responseTime := some 5 } 7 =
      { status := .healthy, responseTime := some 5 } ∧
    withResponseTimeAliases { status := .healthy, responseTime := some 5 } = true ∧
    runCheck { name := "db" }
        (.settled (.fulfilled { status := .healthy, responseTime := some 5 }) 7) ≠
      { status := .healthy, responseTime := some 5 } ∧
    runCheck { name := "db" }
        (.settled (.fulfilled { status := .healthy, responseTime := some 5 }) 7) =
      { status := .healthy, responseTime := some 5, impact := some .critical } := by
  refine ⟨rfl, rfl, by decide, by decide⟩

/-- C9 as amended: no entry of the checks map changes after it is stored —
each name maps in the final response exactly to the result computed at its
check's execution — and on the settled-fulfilled path the engine's changes
relative to the check's own result are confined to back-filling a missing
`responseTime` and writing the `impact` tag; `status`, `message` and
`timedOut` are carried over unchanged.  (The `impact` write lands on the
check's own object whenever `withResponseTime` aliases it.) -/
theorem checkResult_post_storage_spec (serviceName timestamp : String)
    (inputs : List (NormalizedCheck × CheckExecution))
    (hnd : (inputs.map fun ce => ce.1.name).Nodup) :
    (∀ ce ∈ inputs,
      lookupResult ((runHealthChecks serviceName timestamp inputs).checks.getD [])
        ce.1.name = some (runCheck ce.1 ce.2)) ∧
    (∀ (c : NormalizedCheck) (r : CheckResult) (d : Int),
      (runCheck c (.settled (.fulfilled r) d)).status = r.status ∧
      (runCheck c (.settled (.fulfilled r) d)).message = r.message ∧
      (runCheck c (.settled (.fulfilled r) d)).timedOut = r.timedOut ∧
      (runCheck c (.settled (.fulfilled r) d)).responseTime =
        (if r.responseTime.isSome then r.responseTime else some d) ∧
      (runCheck c (.settled (.fulfilled r) d)).impact = some c.impact) := by
  refine ⟨runHealthChecks_lookup serviceName timestamp inputs hnd, ?_⟩
  intro c r d
  cases hr : r.responseTime with
  | none => simp [runCheck, withResponseTime, hr]
  | some x => simp [runCheck, withResponseTime, hr]

/-- Witness for the amended C9: a fulfilled `degraded` result with
`responseTime = 5` is stored exactly as computed, and keeps its own response
time (no overwrite). -/
theorem checkResult_post_storage_spec_witness :
    lookupResult ((runHealthChecks "svc" "t0"
        [({ name := "db" },
          .settled (.fulfilled { status := .degraded, responseTime := some 5 }) 7)]).checks.getD [])
      "db" =
      some (runCheck { name := "db" }
        (.settled (.fulfilled { status := .degraded, responseTime := some 5 }) 7)) ∧
    (runCheck { name := "db" }
      (.settled (.fulfilled { status := .degraded, responseTime := some 5 }) 7)).responseTime =
      some 5 := by
  have h := checkResult_post_storage_spec "svc" "t0"
    [({ name := "db" },
      .settled (.fulfilled { status := .degraded, responseTime := some 5 }) 7)] (by decide)
  refine ⟨h.1 ({ name := "db" },
    .settled (.fulfilled { status := .degraded, responseTime := some 5 }) 7) (by simp), ?_⟩
  have h2 := (h.2 { name := "db" } { status := .degraded, responseTime := some 5 } 7).2.2.2.1
  simpa using h2

/-- Witness for C1: a single critical `degraded` result — no critical check
unhealthy, not all checks healthy — yields overall `degraded`. -/
theorem determineOverallStatus_spec_witness :
    determineOverallStatus [("db", { status := .degraded })] = .degraded := by
  exact (determineOverallStatus_spec [("db", { status := .degraded })]).2.2
    (by decide) (by decide)
